import Mathlib

/-!
Shallow embedding of `GenericPacket` (src/include/GenericPacket.h), a
length-prefixed packet framing codec parameterized over the byte widths of
the header's `size` and `type` fields.

Modelling conventions:
* A `QByteArray` is a `List Nat` of byte values; `data.size()` is
  `List.length`, `data.mid(p, n)` is `(·.drop p).take n`, `data.left n` is
  `List.take n`, `data.remove(0, n)` is `List.drop n`.
* `S` / `T` are unsigned integers of `sw` / `tw` bytes; a value stored into
  such a field is reduced `% 256 ^ w` (the `static_cast`), and the
  network-order marshalling (`hton`/`ntoh` plus the packed `RawHeader`
  layout) is big-endian byte encoding/decoding.
* `std::size_t` arithmetic is 64-bit: the subtraction in
  `hasCompletePacket` wraps modulo `2 ^ 64` (`usub64`).
* Thrown exceptions (`std::length_error`, `std::range_error`) become
  `Except PacketError`; a function that mutates its by-reference buffer
  also returns the buffer's final state, which on a throw is the state the
  code leaves the buffer in at the throw point.
-/

/-- Width of `std::size_t` arithmetic. -/
def W64 : Nat := 2 ^ 64

/-- `std::size_t` subtraction `a - b`, wrapping modulo `2 ^ 64`. -/
def usub64 (a b : Nat) : Nat := (a % W64 + (W64 - b % W64)) % W64

/-- Big-endian encoding of `v` into exactly `w` bytes (the packed
`RawHeader` field after `hton`): most significant byte first. -/
def beEncode : Nat → Nat → List Nat
  | 0, _ => []
  | w + 1, v => beEncode w (v / 256) ++ [v % 256]

/-- Big-endian decoding of a byte list (`ntoh` of a packed field). -/
def beDecode (bs : List Nat) : Nat :=
  bs.foldl (fun acc b => acc * 256 + b % 256) 0

/-- The in-memory header: `m_size` and `m_type` of `GenericPacket::Header`. -/
structure Header where
  size : Nat
  type : Nat
deriving Repr, DecidableEq

/-- The two error kinds the code throws. -/
inductive PacketError where
  | lengthError
  | rangeError
deriving Repr, DecidableEq

/-- `Header::dataSize()`: `sizeof(RawHeader<S, T>)` with `#pragma pack(1)`,
i.e. the summed byte widths of the two fields. -/
def Header.dataSize (sw tw : Nat) : Nat := sw + tw

/-- `Header::maxSize()`: `std::numeric_limits<S>::max()`. -/
def Header.maxSize (sw : Nat) : Nat := 256 ^ sw - 1

/-- `RawHeader::fromData` followed by the private `Header(const QByteArray &)`
constructor: unchecked big-endian decode of the leading header bytes. -/
def rawHeaderFromData (sw tw : Nat) (data : List Nat) : Header :=
  { size := beDecode (data.take sw)
    type := beDecode ((data.drop sw).take tw) }

/-- `Header::hasCompleteHeader`. -/
def Header.hasCompleteHeader (sw tw : Nat) (data : List Nat) : Bool :=
  decide (Header.dataSize sw tw ≤ data.length)

/-- `Header::fromData`: non-destructive parse, throws a length error on a
short buffer. -/
def Header.fromData (sw tw : Nat) (data : List Nat) : Except PacketError Header :=
  if Header.hasCompleteHeader sw tw data then
    .ok (rawHeaderFromData sw tw data)
  else
    .error .lengthError

/-- `Header::extractFromData`: like `fromData` but removes the consumed
`dataSize` bytes from the front of the buffer; the second component is the
buffer's state after the call. -/
def Header.extractFromData (sw tw : Nat) (data : List Nat) :
    Except PacketError Header × List Nat :=
  if Header.hasCompleteHeader sw tw data then
    (.ok (rawHeaderFromData sw tw data), data.drop (Header.dataSize sw tw))
  else
    (.error .lengthError, data)

/-- `Header::setSize`. -/
def Header.setSize (h : Header) (s : Nat) : Header := { h with size := s }

/-- `Header::setType`. -/
def Header.setType (h : Header) (t : Nat) : Header := { h with type := t }

/-- `Header::toData`: `RawHeader::toData(hton(m_size), hton(m_type))`, the
two fields big-endian, packed with no padding. -/
def Header.toData (sw tw : Nat) (h : Header) : List Nat :=
  beEncode sw h.size ++ beEncode tw h.type

/-- The packet: `m_header` and `m_payload` of `GenericPacket`. -/
structure GenericPacket where
  header : Header
  payload : List Nat
deriving Repr, DecidableEq

/-- `GenericPacket(Type type, const QByteArray &payload)` (and the rvalue
overload, which is semantically identical): stores
`static_cast<S>(payload.size())` as the header size and the `T`-typed tag,
then `ensureSizeCanHoldPayload` throws a range error when
`payload.size() > Header::maxSize()`. -/
def GenericPacket.make (sw tw : Nat) (ty : Nat) (payload : List Nat) :
    Except PacketError GenericPacket :=
  let p : GenericPacket :=
    { header := { size := payload.length % 256 ^ sw, type := ty % 256 ^ tw }
      payload := payload }
  if payload.length > Header.maxSize sw then .error .rangeError else .ok p

/-- `GenericPacket::hasCompletePacket`: complete header, and the `size_t`
difference `data.size() - Header::dataSize()` at least the decoded size
field (the decode is only evaluated when the first conjunct holds). -/
def GenericPacket.hasCompletePacket (sw tw : Nat) (data : List Nat) : Bool :=
  Header.hasCompleteHeader sw tw data &&
    decide ((rawHeaderFromData sw tw data).size ≤
      usub64 data.length (Header.dataSize sw tw))

/-- `GenericPacket::fromData`: throws a length error unless
`hasCompletePacket`, then the private `GenericPacket(const QByteArray &)`
constructor copies the header and `data.mid(Header::dataSize(), size)`. -/
def GenericPacket.fromData (sw tw : Nat) (data : List Nat) :
    Except PacketError GenericPacket :=
  if GenericPacket.hasCompletePacket sw tw data then
    match Header.fromData sw tw data with
    | .ok h =>
        .ok { header := h
              payload := (data.drop (Header.dataSize sw tw)).take h.size }
    | .error e => .error e
  else
    .error .lengthError

/-- `GenericPacket::extractFromData`: throws a length error unless
`hasCompletePacket`, then the private `GenericPacket(QByteArray &)`
constructor extracts the header (removing `Header::dataSize()` bytes),
copies `data.left(size)` and removes those `size` bytes too. The second
component is the buffer's state after the call. -/
def GenericPacket.extractFromData (sw tw : Nat) (data : List Nat) :
    Except PacketError GenericPacket × List Nat :=
  if GenericPacket.hasCompletePacket sw tw data then
    match Header.extractFromData sw tw data with
    | (.ok h, rest) =>
        (.ok { header := h, payload := rest.take h.size }, rest.drop h.size)
    | (.error e, rest) => (.error e, rest)
  else
    (.error .lengthError, data)

/-- `GenericPacket::setPayload` (both overloads): replaces the payload and
sets the header size to `static_cast<S>(m_payload.size())`; no further
validation is performed. -/
def GenericPacket.setPayload (sw : Nat) (p : GenericPacket)
    (payload : List Nat) : GenericPacket :=
  { p with payload := payload
           header := p.header.setSize (payload.length % 256 ^ sw) }

/-- `GenericPacket::toData`: header bytes followed by the raw payload. -/
def GenericPacket.toData (sw tw : Nat) (p : GenericPacket) : List Nat :=
  Header.toData sw tw p.header ++ p.payload

/-- `GenericPacket::dataSize`. -/
def GenericPacket.dataSize (sw tw : Nat) (p : GenericPacket) : Nat :=
  Header.dataSize sw tw + p.payload.length

/-- Instrumented `hasCompletePacket` that reports `none` whenever the
unchecked header decode would read past the buffer or the `size_t`
subtraction would underflow, instead of evaluating them. -/
def hasCompletePacketChecked (sw tw : Nat) (data : List Nat) : Option Bool :=
  if Header.hasCompleteHeader sw tw data then
    if data.length < Header.dataSize sw tw then
      none
    else
      some (decide ((rawHeaderFromData sw tw data).size ≤
        data.length - Header.dataSize sw tw))
  else
    some false

/-! ### Arithmetic and encoding lemmas -/

theorem usub64_eq_sub {a b : Nat} (ha : a < W64) (hba : b ≤ a) :
    usub64 a b = a - b := by
  have hb : b < W64 := lt_of_le_of_lt hba ha
  unfold usub64
  rw [Nat.mod_eq_of_lt ha, Nat.mod_eq_of_lt hb]
  have h : a + (W64 - b) = W64 + (a - b) := by omega
  rw [h, Nat.add_mod_left]
  exact Nat.mod_eq_of_lt (by omega)

theorem beEncode_length (w v : Nat) : (beEncode w v).length = w := by
  induction w generalizing v with
  | zero => rfl
  | succ w ih => simp [beEncode, ih]

theorem beDecode_beEncode (w v : Nat) :
    beDecode (beEncode w v) = v % 256 ^ w := by
  induction w generalizing v with
  | zero => simp [beEncode, beDecode, Nat.mod_one]
  | succ w ih =>
    have hfold :
        beDecode (beEncode w (v / 256) ++ [v % 256]) =
          beDecode (beEncode w (v / 256)) * 256 + v % 256 % 256 := by
      simp [beDecode, List.foldl_append]
    have hmod : v % (256 * 256 ^ w) = v % 256 + 256 * (v / 256 % 256 ^ w) :=
      Nat.mod_mul
    calc beDecode (beEncode (w + 1) v)
        = beDecode (beEncode w (v / 256)) * 256 + v % 256 % 256 := by
          rw [beEncode]; exact hfold
      _ = (v / 256 % 256 ^ w) * 256 + v % 256 := by
          rw [ih, Nat.mod_mod_of_dvd _ (by omega)]
      _ = v % 256 ^ (w + 1) := by
          rw [pow_succ, mul_comm (256 ^ w) 256, hmod]; ring

theorem beDecode_lt (bs : List Nat) : beDecode bs < 256 ^ bs.length := by
  induction bs using List.reverseRecOn with
  | nil => simp [beDecode]
  | append_singleton xs b ih =>
    have hfold : beDecode (xs ++ [b]) = beDecode xs * 256 + b % 256 := by
      simp [beDecode, List.foldl_append]
    have hb : b % 256 < 256 := Nat.mod_lt _ (by omega)
    simp only [hfold, List.length_append, List.length_singleton, pow_succ]
    calc beDecode xs * 256 + b % 256 < beDecode xs * 256 + 256 := by omega
      _ = (beDecode xs + 1) * 256 := by ring
      _ ≤ 256 ^ xs.length * 256 := by
          have := ih
          exact Nat.mul_le_mul_right _ (by omega)

/-- Decomposing a wire buffer `encode(a) ++ encode(b) ++ rest`. -/
theorem wire_take_sw (sw tw a b : Nat) (rest : List Nat) :
    (beEncode sw a ++ (beEncode tw b ++ rest)).take sw = beEncode sw a := by
  have h := List.take_left (beEncode sw a) (beEncode tw b ++ rest)
  rwa [beEncode_length] at h

theorem wire_drop_sw (sw tw a b : Nat) (rest : List Nat) :
    (beEncode sw a ++ (beEncode tw b ++ rest)).drop sw = beEncode tw b ++ rest := by
  have h := List.drop_left (beEncode sw a) (beEncode tw b ++ rest)
  rwa [beEncode_length] at h

theorem wire_drop_header (sw tw a b : Nat) (rest : List Nat) :
    (beEncode sw a ++ (beEncode tw b ++ rest)).drop (Header.dataSize sw tw) = rest := by
  have h1 : Header.dataSize sw tw = sw + tw := rfl
  rw [h1, ← List.drop_drop tw sw, wire_drop_sw]
  have h := List.drop_left (beEncode tw b) rest
  rwa [beEncode_length] at h

theorem wire_length (sw tw a b : Nat) (rest : List Nat) :
    (beEncode sw a ++ (beEncode tw b ++ rest)).length =
      Header.dataSize sw tw + rest.length := by
  simp [beEncode_length, Header.dataSize]; omega

/-- Decoding the header of a wire buffer recovers the encoded fields
modulo the field widths. -/
theorem rawHeaderFromData_wire (sw tw a b : Nat) (rest : List Nat) :
    rawHeaderFromData sw tw (beEncode sw a ++ (beEncode tw b ++ rest)) =
      { size := a % 256 ^ sw, type := b % 256 ^ tw } := by
  unfold rawHeaderFromData
  rw [wire_take_sw, wire_drop_sw, beDecode_beEncode]
  have h := List.take_left (beEncode tw b) rest
  rw [beEncode_length] at h
  rw [h, beDecode_beEncode]

/-! ### Structural helper lemmas -/

theorem hasCompleteHeader_iff (sw tw : Nat) (data : List Nat) :
    Header.hasCompleteHeader sw tw data = true ↔
      Header.dataSize sw tw ≤ data.length := by
  simp [Header.hasCompleteHeader]

theorem hasCompletePacket_iff_aux (sw tw : Nat) (data : List Nat)
    (hfit : data.length < W64) :
    GenericPacket.hasCompletePacket sw tw data = true ↔
      Header.dataSize sw tw ≤ data.length ∧
        (rawHeaderFromData sw tw data).size ≤
          data.length - Header.dataSize sw tw := by
  unfold GenericPacket.hasCompletePacket
  simp only [Bool.and_eq_true, decide_eq_true_eq, hasCompleteHeader_iff]
  constructor
  · rintro ⟨h1, h2⟩
    exact ⟨h1, by rwa [usub64_eq_sub hfit h1] at h2⟩
  · rintro ⟨h1, h2⟩
    exact ⟨h1, by rwa [usub64_eq_sub hfit h1]⟩

theorem hasCompletePacket_hasCompleteHeader (sw tw : Nat) (data : List Nat)
    (hcp : GenericPacket.hasCompletePacket sw tw data = true) :
    Header.hasCompleteHeader sw tw data = true := by
  unfold GenericPacket.hasCompletePacket at hcp
  exact (Bool.and_eq_true _ _ |>.mp hcp).1

theorem headerFromData_eq_of_complete (sw tw : Nat) (data : List Nat)
    (hch : Header.hasCompleteHeader sw tw data = true) :
    Header.fromData sw tw data = .ok (rawHeaderFromData sw tw data) := by
  unfold Header.fromData
  rw [if_pos hch]

theorem fromData_eq_of_complete (sw tw : Nat) (data : List Nat)
    (hcp : GenericPacket.hasCompletePacket sw tw data = true) :
    GenericPacket.fromData sw tw data =
      .ok { header := rawHeaderFromData sw tw data
            payload := (data.drop (Header.dataSize sw tw)).take
              (rawHeaderFromData sw tw data).size } := by
  unfold GenericPacket.fromData
  rw [if_pos hcp,
    headerFromData_eq_of_complete sw tw data
      (hasCompletePacket_hasCompleteHeader sw tw data hcp)]

theorem extract_eq_of_complete (sw tw : Nat) (data : List Nat)
    (hcp : GenericPacket.hasCompletePacket sw tw data = true) :
    GenericPacket.extractFromData sw tw data =
      (.ok { header := rawHeaderFromData sw tw data
             payload := (data.drop (Header.dataSize sw tw)).take
               (rawHeaderFromData sw tw data).size },
       (data.drop (Header.dataSize sw tw)).drop
         (rawHeaderFromData sw tw data).size) := by
  unfold GenericPacket.extractFromData Header.extractFromData
  rw [if_pos hcp,
    if_pos (hasCompletePacket_hasCompleteHeader sw tw data hcp)]

theorem fromData_eq_error (sw tw : Nat) (data : List Nat)
    (hcp : ¬GenericPacket.hasCompletePacket sw tw data = true) :
    GenericPacket.fromData sw tw data = .error .lengthError := by
  unfold GenericPacket.fromData
  rw [if_neg hcp]

theorem extract_eq_error (sw tw : Nat) (data : List Nat)
    (hcp : ¬GenericPacket.hasCompletePacket sw tw data = true) :
    GenericPacket.extractFromData sw tw data = (.error .lengthError, data) := by
  unfold GenericPacket.extractFromData
  rw [if_neg hcp]

/-! ### Claims -/

/-- C3: `hasCompletePacket` returns true iff the buffer length is at least
`HEADER_WIDTH` and the bytes remaining after the header are at least the
size value decoded from the first header bytes. (The embedding is a pure
function of the buffer, so the call cannot mutate it.) -/
theorem spec_c3_hasCompletePacket_iff (sw tw : Nat) (data : List Nat)
    (hfit : data.length < W64) :
    GenericPacket.hasCompletePacket sw tw data = true ↔
      Header.dataSize sw tw ≤ data.length ∧
        (rawHeaderFromData sw tw data).size ≤
          data.length - Header.dataSize sw tw :=
  hasCompletePacket_iff_aux sw tw data hfit

theorem spec_c3_witness :
    ([3, 7, 65, 66, 67] : List Nat).length < W64 ∧
      (GenericPacket.hasCompletePacket 1 1 [3, 7, 65, 66, 67] = true ↔
        Header.dataSize 1 1 ≤ ([3, 7, 65, 66, 67] : List Nat).length ∧
          (rawHeaderFromData 1 1 [3, 7, 65, 66, 67]).size ≤
            ([3, 7, 65, 66, 67] : List Nat).length - Header.dataSize 1 1) :=
  ⟨by decide, spec_c3_hasCompletePacket_iff 1 1 [3, 7, 65, 66, 67] (by decide)⟩

/-- C10: `hasCompletePacket` is total and safe: the instrumented version,
which reports `none` if the unchecked decode were reached on a short buffer
or the `size_t` subtraction could underflow, always returns `some` of the
value the real predicate computes. -/
theorem spec_c10_hasCompletePacket_safe (sw tw : Nat) (data : List Nat)
    (hfit : data.length < W64) :
    hasCompletePacketChecked sw tw data =
      some (GenericPacket.hasCompletePacket sw tw data) := by
  by_cases hc : Header.dataSize sw tw ≤ data.length
  · have hch : Header.hasCompleteHeader sw tw data = true :=
      (hasCompleteHeader_iff sw tw data).mpr hc
    unfold hasCompletePacketChecked GenericPacket.hasCompletePacket
    rw [hch, if_pos rfl, if_neg (by omega), usub64_eq_sub hfit hc]
    simp
  · have hch : ¬Header.hasCompleteHeader sw tw data = true := by
      simpa [hasCompleteHeader_iff] using hc
    unfold hasCompletePacketChecked GenericPacket.hasCompletePacket
    rw [if_neg hch]
    simp [Bool.eq_false_iff.mpr hch]

theorem spec_c10_witness :
    ([9, 9] : List Nat).length < W64 ∧
      hasCompletePacketChecked 2 1 [9, 9] =
        some (GenericPacket.hasCompletePacket 2 1 [9, 9]) :=
  ⟨by decide, spec_c10_hasCompletePacket_safe 2 1 [9, 9] (by decide)⟩

/-- C6: constructing a packet from a payload of length exactly `maxSize()`
succeeds, and from one of length `maxSize() + 1` fails with a range
error. -/
theorem spec_c6_capacity_boundary (sw tw ty : Nat) (pOK pBig : List Nat)
    (hok : pOK.length = Header.maxSize sw)
    (hbig : pBig.length = Header.maxSize sw + 1) :
    (∃ p, GenericPacket.make sw tw ty pOK = .ok p) ∧
      GenericPacket.make sw tw ty pBig = .error .rangeError := by
  constructor
  · refine ⟨{ header := { size := pOK.length % 256 ^ sw, type := ty % 256 ^ tw }
              payload := pOK }, ?_⟩
    simp only [GenericPacket.make]
    rw [if_neg (by omega)]
  · simp only [GenericPacket.make]
    rw [if_pos (by omega)]

theorem spec_c6_witness :
    ((List.replicate 255 0).length = Header.maxSize 1 ∧
      (List.replicate 256 0).length = Header.maxSize 1 + 1) ∧
      ((∃ p, GenericPacket.make 1 1 7 (List.replicate 255 0) = .ok p) ∧
        GenericPacket.make 1 1 7 (List.replicate 256 0) = .error .rangeError) :=
  ⟨⟨by rw [List.length_replicate]; decide, by rw [List.length_replicate]; decide⟩,
    spec_c6_capacity_boundary 1 1 7 (List.replicate 255 0)
      (List.replicate 256 0) (by rw [List.length_replicate]; decide)
      (by rw [List.length_replicate]; decide)⟩

/-- C7: on a buffer shorter than `HEADER_WIDTH`, both `fromData` and
`extractFromData` fail with a length error, and `extractFromData` leaves
the buffer exactly as it was. -/
theorem spec_c7_partial_buffer (sw tw : Nat) (data : List Nat)
    (hshort : data.length < Header.dataSize sw tw) :
    GenericPacket.fromData sw tw data = .error .lengthError ∧
      GenericPacket.extractFromData sw tw data = (.error .lengthError, data) := by
  have hcp : ¬GenericPacket.hasCompletePacket sw tw data = true := by
    unfold GenericPacket.hasCompletePacket
    simp only [Bool.and_eq_true, decide_eq_true_eq, hasCompleteHeader_iff]
    omega
  exact ⟨fromData_eq_error sw tw data hcp, extract_eq_error sw tw data hcp⟩

theorem spec_c7_witness :
    ([5] : List Nat).length < Header.dataSize 1 1 ∧
      GenericPacket.fromData 1 1 [5] = .error .lengthError ∧
        GenericPacket.extractFromData 1 1 [5] = (.error .lengthError, [5]) :=
  ⟨by decide, spec_c7_partial_buffer 1 1 [5] (by decide)⟩

/-- C9: on a buffer of length at least `HEADER_WIDTH`,
`Header::extractFromData` returns the same header `Header::fromData`
returns and removes exactly the first `HEADER_WIDTH` bytes; on a shorter
buffer both fail with a length error and the buffer is untouched. -/
theorem spec_c9_header_extract (sw tw : Nat) (data : List Nat) :
    (Header.dataSize sw tw ≤ data.length →
      Header.extractFromData sw tw data =
        (Header.fromData sw tw data, data.drop (Header.dataSize sw tw)) ∧
      Header.fromData sw tw data = .ok (rawHeaderFromData sw tw data)) ∧
    (data.length < Header.dataSize sw tw →
      Header.extractFromData sw tw data = (.error .lengthError, data) ∧
      Header.fromData sw tw data = .error .lengthError) := by
  constructor
  · intro hge
    have hch : Header.hasCompleteHeader sw tw data = true :=
      (hasCompleteHeader_iff sw tw data).mpr hge
    unfold Header.extractFromData Header.fromData
    rw [hch]
    simp
  · intro hlt
    have hch : Header.hasCompleteHeader sw tw data = false := by
      simp only [Header.hasCompleteHeader, decide_eq_false_iff_not]
      omega
    unfold Header.extractFromData Header.fromData
    rw [hch]
    simp

theorem spec_c9_witness :
    Header.extractFromData 1 1 [3, 7, 9] =
        (.ok { size := 3, type := 7 }, [9]) ∧
      Header.fromData 1 1 [3, 7, 9] = .ok { size := 3, type := 7 } ∧
      Header.extractFromData 1 1 [3] = (.error .lengthError, [3]) := by
  obtain ⟨h1, h2⟩ := (spec_c9_header_extract 1 1 [3, 7, 9]).1 (by decide)
  obtain ⟨h3, _⟩ := (spec_c9_header_extract 1 1 [3]).2 (by decide)
  refine ⟨?_, ?_, h3⟩
  · rw [h1, h2]; rfl
  · rw [h2]; rfl

/-- C8: `toData()` is the size field big-endian, then the type field
big-endian with no padding, then the raw payload, for a total of
`HEADER_WIDTH + payload.length` bytes; in the 8-bit/8-bit instantiation a
packet built from type 7 and payload `[0x41, 0x42, 0x43]` serializes to
`[0x03, 0x07, 0x41, 0x42, 0x43]`. -/
theorem spec_c8_wire_layout (sw tw : Nat) (p : GenericPacket) :
    GenericPacket.toData sw tw p =
      beEncode sw p.header.size ++ (beEncode tw p.header.type ++ p.payload) ∧
    (GenericPacket.toData sw tw p).length =
      Header.dataSize sw tw + p.payload.length ∧
    (∃ q, GenericPacket.make 1 1 7 [0x41, 0x42, 0x43] = .ok q ∧
      GenericPacket.toData 1 1 q = [0x03, 0x07, 0x41, 0x42, 0x43]) ∧
    Header.toData 2 2 { size := 3, type := 7 } = [0, 3, 0, 7] := by
  refine ⟨?_, ?_,
    ⟨{ header := { size := 3, type := 7 }, payload := [0x41, 0x42, 0x43] },
      rfl, rfl⟩, rfl⟩
  · simp [GenericPacket.toData, Header.toData]
  · rw [GenericPacket.toData, Header.toData, List.append_assoc]
    exact wire_length sw tw p.header.size p.header.type p.payload

/-- Success shape of construction from `(type, payload)` when the payload
fits. -/
theorem make_eq_ok (sw tw ty : Nat) (payload : List Nat)
    (hlen : payload.length ≤ Header.maxSize sw) :
    GenericPacket.make sw tw ty payload =
      .ok { header := { size := payload.length % 256 ^ sw
                        type := ty % 256 ^ tw }
            payload := payload } := by
  simp only [GenericPacket.make]
  rw [if_neg (by omega)]

/-- A wire buffer `encode(size) ++ encode(type) ++ rest` with
`size ≤ rest.length` and `size < 256 ^ sw` passes `hasCompletePacket`. -/
theorem hasCompletePacket_wire (sw tw a b : Nat) (rest : List Nat)
    (ha : a < 256 ^ sw) (harest : a ≤ rest.length)
    (hfit : Header.dataSize sw tw + rest.length < W64) :
    GenericPacket.hasCompletePacket sw tw
      (beEncode sw a ++ (beEncode tw b ++ rest)) = true := by
  rw [hasCompletePacket_iff_aux sw tw _ (by rw [wire_length]; exact hfit)]
  rw [rawHeaderFromData_wire, wire_length]
  refine ⟨by omega, ?_⟩
  simp only [Nat.add_sub_cancel_left]
  calc a % 256 ^ sw = a := Nat.mod_eq_of_lt ha
    _ ≤ rest.length := harest

/-- `fromData` on a wire buffer `encode(size) ++ encode(type) ++
(payload ++ extra)` with `size = payload.length < 256 ^ sw` recovers the
header fields and exactly the payload. -/
theorem fromData_wire (sw tw a b : Nat) (payload extra : List Nat)
    (ha : a < 256 ^ sw) (hsz : a = payload.length)
    (hfit : Header.dataSize sw tw + (payload ++ extra).length < W64) :
    GenericPacket.fromData sw tw
        (beEncode sw a ++ (beEncode tw b ++ (payload ++ extra))) =
      .ok { header := { size := a, type := b % 256 ^ tw }
            payload := payload } := by
  have hcp := hasCompletePacket_wire sw tw a b (payload ++ extra) ha
    (by rw [hsz, List.length_append]; omega) hfit
  rw [fromData_eq_of_complete sw tw _ hcp, rawHeaderFromData_wire,
    wire_drop_header]
  have htake : (payload ++ extra).take a = payload := by
    rw [hsz]
    exact List.take_left payload extra
  simp only [Nat.mod_eq_of_lt ha, htake]

/-- C1: building a packet from any representable type tag and any payload
no longer than `maxSize()`, serializing it, and parsing the bytes back
recovers the original type and payload (and a size equal to the payload's
length). -/
theorem spec_c1_roundtrip (sw tw ty : Nat) (payload : List Nat)
    (hty : ty < 256 ^ tw)
    (hlen : payload.length ≤ Header.maxSize sw)
    (hfit : Header.dataSize sw tw + payload.length < W64) :
    ∃ p q, GenericPacket.make sw tw ty payload = .ok p ∧
      GenericPacket.fromData sw tw (GenericPacket.toData sw tw p) = .ok q ∧
      q.header.type = ty ∧ q.payload = payload ∧
      q.header.size = payload.length := by
  have hpos : 0 < 256 ^ sw := Nat.pos_pow_of_pos sw (by omega)
  have hlt : payload.length < 256 ^ sw := by
    unfold Header.maxSize at hlen; omega
  have hszmod : payload.length % 256 ^ sw = payload.length :=
    Nat.mod_eq_of_lt hlt
  have htymod : ty % 256 ^ tw = ty := Nat.mod_eq_of_lt hty
  refine ⟨{ header := { size := payload.length % 256 ^ sw
                        type := ty % 256 ^ tw }
            payload := payload },
    { header := { size := payload.length, type := ty }, payload := payload },
    make_eq_ok sw tw ty payload hlen, ?_, rfl, rfl, rfl⟩
  have hwire : GenericPacket.toData sw tw
      { header := { size := payload.length % 256 ^ sw, type := ty % 256 ^ tw }
        payload := payload } =
      beEncode sw payload.length ++ (beEncode tw ty ++ (payload ++ [])) := by
    simp [GenericPacket.toData, Header.toData, hszmod, htymod]
  rw [hwire, fromData_wire sw tw payload.length ty payload [] hlt rfl
    (by simpa using hfit), htymod]

theorem spec_c1_witness :
    (7 < 256 ^ 1 ∧ ([65, 66, 67] : List Nat).length ≤ Header.maxSize 1 ∧
      Header.dataSize 1 1 + ([65, 66, 67] : List Nat).length < W64) ∧
      ∃ p q, GenericPacket.make 1 1 7 [65, 66, 67] = .ok p ∧
        GenericPacket.fromData 1 1 (GenericPacket.toData 1 1 p) = .ok q ∧
        q.header.type = 7 ∧ q.payload = [65, 66, 67] ∧
        q.header.size = ([65, 66, 67] : List Nat).length :=
  ⟨⟨by decide, by decide, by decide⟩,
    spec_c1_roundtrip 1 1 7 [65, 66, 67] (by decide) (by decide) (by decide)⟩

/-- C2: on a buffer that is exactly one complete packet followed by `k`
trailing bytes, `extractFromData` returns exactly the packet `fromData`
returns on the same buffer (which succeeds, with the original header size,
type and payload), and removes `HEADER_WIDTH + size` bytes from the front,
leaving exactly the `k` trailing bytes. -/
theorem spec_c2_extract_conservation (sw tw : Nat) (p : GenericPacket)
    (extra : List Nat)
    (hsz : p.header.size = p.payload.length)
    (hlt : p.header.size < 256 ^ sw)
    (hfit : (GenericPacket.toData sw tw p ++ extra).length < W64) :
    GenericPacket.extractFromData sw tw
        (GenericPacket.toData sw tw p ++ extra) =
      (GenericPacket.fromData sw tw (GenericPacket.toData sw tw p ++ extra),
        extra) ∧
    ∃ q, GenericPacket.fromData sw tw
        (GenericPacket.toData sw tw p ++ extra) = .ok q ∧
      q.header.size = p.header.size ∧
      q.header.type = p.header.type % 256 ^ tw ∧
      q.payload = p.payload := by
  have hbuf : GenericPacket.toData sw tw p ++ extra =
      beEncode sw p.header.size ++
        (beEncode tw p.header.type ++ (p.payload ++ extra)) := by
    simp [GenericPacket.toData, Header.toData, List.append_assoc]
  have hfit2 : Header.dataSize sw tw + (p.payload ++ extra).length < W64 := by
    rw [hbuf, wire_length] at hfit
    exact hfit
  have hrest : p.header.size ≤ (p.payload ++ extra).length := by
    rw [List.length_append]
    omega
  have hcp := hasCompletePacket_wire sw tw p.header.size p.header.type
    (p.payload ++ extra) hlt hrest hfit2
  have hfrom := fromData_wire sw tw p.header.size p.header.type p.payload
    extra hlt hsz hfit2
  have htake : (p.payload ++ extra).take p.header.size = p.payload := by
    rw [hsz]
    exact List.take_left p.payload extra
  have hdrop : (p.payload ++ extra).drop p.header.size = extra := by
    rw [hsz]
    exact List.drop_left p.payload extra
  have hext : GenericPacket.extractFromData sw tw
      (GenericPacket.toData sw tw p ++ extra) =
      (.ok { header := { size := p.header.size
                         type := p.header.type % 256 ^ tw }
             payload := p.payload }, extra) := by
    rw [hbuf, extract_eq_of_complete sw tw _ hcp, rawHeaderFromData_wire,
      wire_drop_header]
    simp only [Nat.mod_eq_of_lt hlt, htake, hdrop]
  constructor
  · rw [hext, hbuf, hfrom]
  · exact ⟨{ header := { size := p.header.size
                         type := p.header.type % 256 ^ tw }
             payload := p.payload },
      by rw [hbuf]; exact hfrom, rfl, rfl, rfl⟩

theorem spec_c2_witness :
    (({ header := { size := 3, type := 7 }
        payload := [65, 66, 67] } : GenericPacket).header.size =
        ([65, 66, 67] : List Nat).length ∧
      (3 : Nat) < 256 ^ 1 ∧
      (GenericPacket.toData 1 1
          { header := { size := 3, type := 7 }, payload := [65, 66, 67] } ++
        [255]).length < W64) ∧
      (GenericPacket.extractFromData 1 1
          (GenericPacket.toData 1 1
            { header := { size := 3, type := 7 }, payload := [65, 66, 67] } ++
            [255]) =
        (GenericPacket.fromData 1 1
          (GenericPacket.toData 1 1
            { header := { size := 3, type := 7 }, payload := [65, 66, 67] } ++
            [255]), [255]) ∧
      ∃ q, GenericPacket.fromData 1 1
          (GenericPacket.toData 1 1
            { header := { size := 3, type := 7 }, payload := [65, 66, 67] } ++
            [255]) = .ok q ∧
        q.header.size = 3 ∧ q.header.type = 7 % 256 ^ 1 ∧
        q.payload = [65, 66, 67]) :=
  ⟨⟨by decide, by decide, by decide⟩,
    spec_c2_extract_conservation 1 1
      { header := { size := 3, type := 7 }, payload := [65, 66, 67] } [255]
      (by decide) (by decide) (by decide)⟩

/-- C4 counterexample: with an 8-bit size field, replacing the payload of a
packet by one of 256 bytes — one more than `maxSize() = 255` — does not
fail at all: `setPayload` returns a packet, silently storing the wrapped
size `256 % 256 = 0`, so no range error is raised on payload
replacement. -/
theorem spec_c4_counterexample :
    Header.maxSize 1 < (List.replicate 256 0).length ∧
      GenericPacket.setPayload 1
          { header := { size := 0, type := 0 }, payload := [] }
          (List.replicate 256 0) =
        { header := { size := 0, type := 0 }
          payload := List.replicate 256 0 } := by
  have hs : (List.replicate 256 (0 : Nat)).length % 256 ^ 1 = 0 := by
    rw [List.length_replicate]
    decide
  exact ⟨by rw [List.length_replicate]; decide,
    by simp only [GenericPacket.setPayload, Header.setSize, hs]⟩

/-- C4 (amended): `setPayload` replaces the payload and sets the header's
size to the new payload's length reduced modulo the size-field capacity;
it performs no capacity validation, so an over-long payload is accepted
silently. The range-error check runs on the `(type, payload)` construction
paths only. -/
theorem spec_c4_setPayload_no_validation (sw tw ty : Nat)
    (p : GenericPacket) (payload : List Nat) :
    (GenericPacket.setPayload sw p payload).payload = payload ∧
    (GenericPacket.setPayload sw p payload).header.size =
      payload.length % 256 ^ sw ∧
    (GenericPacket.setPayload sw p payload).header.type = p.header.type ∧
    (Header.maxSize sw < payload.length →
      GenericPacket.make sw tw ty payload = .error .rangeError) := by
  refine ⟨rfl, rfl, rfl, fun hbig => ?_⟩
  simp only [GenericPacket.make]
  rw [if_pos (by omega)]

theorem spec_c4_witness :
    (GenericPacket.setPayload 1
        { header := { size := 5, type := 9 }, payload := [1] }
        (List.replicate 256 2)).payload = List.replicate 256 2 ∧
    (GenericPacket.setPayload 1
        { header := { size := 5, type := 9 }, payload := [1] }
        (List.replicate 256 2)).header.size =
      (List.replicate 256 2).length % 256 ^ 1 ∧
    (GenericPacket.setPayload 1
        { header := { size := 5, type := 9 }, payload := [1] }
        (List.replicate 256 2)).header.type = 9 ∧
    (Header.maxSize 1 < (List.replicate 256 2).length →
      GenericPacket.make 1 1 9 (List.replicate 256 2) =
        .error .rangeError) :=
  spec_c4_setPayload_no_validation 1 1 9
    { header := { size := 5, type := 9 }, payload := [1] }
    (List.replicate 256 2)

/-- C5 counterexample: with an 8-bit size field, `setPayload` with a
257-byte payload leaves the header's size field at `257 % 256 = 1` while
the payload's length is 257 — a header referring to a payload of a
different length. -/
theorem spec_c5_counterexample :
    (GenericPacket.setPayload 1
        { header := { size := 3, type := 7 }, payload := [65, 66, 67] }
        (List.replicate 257 1)).header.size = 1 ∧
    (GenericPacket.setPayload 1
        { header := { size := 3, type := 7 }, payload := [65, 66, 67] }
        (List.replicate 257 1)).payload.length = 257 ∧
    (GenericPacket.setPayload 1
        { header := { size := 3, type := 7 }, payload := [65, 66, 67] }
        (List.replicate 257 1)).header.size ≠
      (GenericPacket.setPayload 1
        { header := { size := 3, type := 7 }, payload := [65, 66, 67] }
        (List.replicate 257 1)).payload.length := by
  have hs : (List.replicate 257 (1 : Nat)).length % 256 ^ 1 = 1 := by
    rw [List.length_replicate]
    decide
  have hl : (List.replicate 257 (1 : Nat)).length = 257 :=
    List.length_replicate 257 1
  refine ⟨?_, ?_, ?_⟩
  · simp only [GenericPacket.setPayload, Header.setSize, hs]
  · simp only [GenericPacket.setPayload, hl]
  · simp only [GenericPacket.setPayload, Header.setSize, hs, hl]
    decide

/-- C5 (amended): the size-equals-payload-length invariant holds after
every successful construction path (`(type, payload)` construction,
`fromData`, `extractFromData`); `setPayload` preserves it only when the
new payload's length is at most `maxSize()` — an over-long payload leaves
the size field at the length reduced modulo the field capacity. -/
theorem spec_c5_size_invariant (sw tw ty : Nat) (payload data : List Nat)
    (p q r s : GenericPacket)
    (hfit : data.length < W64) :
    (GenericPacket.make sw tw ty payload = .ok p →
      p.header.size = p.payload.length) ∧
    (GenericPacket.fromData sw tw data = .ok q →
      q.header.size = q.payload.length) ∧
    ((GenericPacket.extractFromData sw tw data).1 = .ok r →
      r.header.size = r.payload.length) ∧
    (payload.length ≤ Header.maxSize sw →
      (GenericPacket.setPayload sw s payload).header.size =
        (GenericPacket.setPayload sw s payload).payload.length) := by
  have hlenlem : ∀ d : List Nat, d.length < W64 →
      GenericPacket.hasCompletePacket sw tw d = true →
      ((d.drop (Header.dataSize sw tw)).take
        (rawHeaderFromData sw tw d).size).length =
        (rawHeaderFromData sw tw d).size := by
    intro d hd hcp
    obtain ⟨h1, h2⟩ := (hasCompletePacket_iff_aux sw tw d hd).mp hcp
    rw [List.length_take, List.length_drop]
    omega
  refine ⟨?_, ?_, ?_, ?_⟩
  · intro h
    by_cases hbig : payload.length > Header.maxSize sw
    · simp only [GenericPacket.make] at h
      rw [if_pos hbig] at h
      exact absurd h (by simp)
    · rw [make_eq_ok sw tw ty payload (by omega)] at h
      injection h with h
      subst h
      have : payload.length < 256 ^ sw := by
        have hpos : 0 < 256 ^ sw := Nat.pos_pow_of_pos sw (by omega)
        unfold Header.maxSize at hbig
        omega
      simpa using Nat.mod_eq_of_lt this
  · intro h
    by_cases hcp : GenericPacket.hasCompletePacket sw tw data = true
    · rw [fromData_eq_of_complete sw tw data hcp] at h
      injection h with h
      subst h
      simpa using (hlenlem data hfit hcp).symm
    · rw [fromData_eq_error sw tw data hcp] at h
      exact absurd h (by simp)
  · intro h
    by_cases hcp : GenericPacket.hasCompletePacket sw tw data = true
    · rw [extract_eq_of_complete sw tw data hcp] at h
      injection h with h
      subst h
      simpa using (hlenlem data hfit hcp).symm
    · rw [extract_eq_error sw tw data hcp] at h
      exact absurd h (by simp)
  · intro hle
    have : payload.length < 256 ^ sw := by
      have hpos : 0 < 256 ^ sw := Nat.pos_pow_of_pos sw (by omega)
      unfold Header.maxSize at hle
      omega
    simp [GenericPacket.setPayload, Header.setSize, Nat.mod_eq_of_lt this]

theorem spec_c5_witness :
    ([2, 7, 10, 11, 12] : List Nat).length < W64 ∧
      ((GenericPacket.make 1 1 7 [10, 11] = .ok
          { header := { size := 2, type := 7 }, payload := [10, 11] } →
        ({ header := { size := 2, type := 7 },
           payload := [10, 11] } : GenericPacket).header.size =
          ({ header := { size := 2, type := 7 },
             payload := [10, 11] } : GenericPacket).payload.length) ∧
      (GenericPacket.fromData 1 1 [2, 7, 10, 11, 12] = .ok
          { header := { size := 2, type := 7 }, payload := [10, 11] } →
        ({ header := { size := 2, type := 7 },
           payload := [10, 11] } : GenericPacket).header.size =
          ({ header := { size := 2, type := 7 },
             payload := [10, 11] } : GenericPacket).payload.length) ∧
      ((GenericPacket.extractFromData 1 1 [2, 7, 10, 11, 12]).1 = .ok
          { header := { size := 2, type := 7 }, payload := [10, 11] } →
        ({ header := { size := 2, type := 7 },
           payload := [10, 11] } : GenericPacket).header.size =
          ({ header := { size := 2, type := 7 },
             payload := [10, 11] } : GenericPacket).payload.length) ∧
      (([10, 11] : List Nat).length ≤ Header.maxSize 1 →
        (GenericPacket.setPayload 1
            { header := { size := 0, type := 3 }, payload := [] }
            [10, 11]).header.size =
          (GenericPacket.setPayload 1
            { header := { size := 0, type := 3 }, payload := [] }
            [10, 11]).payload.length)) :=
  ⟨by decide,
    spec_c5_size_invariant 1 1 7 [10, 11] [2, 7, 10, 11, 12]
      { header := { size := 2, type := 7 }, payload := [10, 11] }
      { header := { size := 2, type := 7 }, payload := [10, 11] }
      { header := { size := 2, type := 7 }, payload := [10, 11] }
      { header := { size := 0, type := 3 }, payload := [] }
      (by decide)⟩
